import Mathlib

/-!
Verification of the SHARETEMP pipeline (`src/main.py`): a shallow embedding of
the link-discovery, download, zip-extraction and upload steps, with theorems
checking the natural-language specification against the code.

Strings are modelled through their character lists (`String.data`), machine
behaviour of the Python string/path operations is reproduced explicitly, and
the filesystem is a flat record of file and directory paths.
-/

namespace Sharetemp

/-- Models Python `str.lower()` (applied characterwise). -/
def pyLower (s : String) : String := ⟨s.data.map Char.toLower⟩

/-- Models Python `str.endswith(suffixStr)`. -/
def endsWithPy (s sfx : String) : Bool := sfx.data.isSuffixOf s.data

/-- Whether `sub` occurs as a contiguous sublist of `l`. -/
def listIsInfixOf : List Char → List Char → Bool
  | sub, [] => sub.isEmpty
  | sub, c :: t => sub.isPrefixOf (c :: t) || listIsInfixOf sub t

/-- Models Python `sub in s` (substring containment). -/
def containsSub (sub s : String) : Bool := listIsInfixOf sub.data s.data

/-- The substring after the last '/' (the whole string when it has no '/').
Models Python `s.split("/")[-1]`. -/
def lastSlashSegment (s : String) : String :=
  ⟨(s.data.reverse.takeWhile (fun c => c != '/')).reverse⟩

/-- The local file name the fetcher derives from a URL: `url.split("/")[-1]`. -/
def localNameOf (url : String) : String := lastSlashSegment url

/-- Models `pathlib.Path.name` for the normalized (no trailing separator)
paths this program builds: the final path component. -/
def pathName (p : String) : String := lastSlashSegment p

/-- Models `pathlib` path joining `d / n` for the names this program joins
(a join with the empty name yields the directory itself, as in pathlib). -/
def pjoin (d n : String) : String := if n = "" then d else d ++ "/" ++ n

/-- Models `pathlib.Path.suffix` of a file NAME: the part from the last dot,
provided that dot is neither the first nor the last character. -/
def pySuffix (name : String) : String :=
  let rev := name.data.reverse
  let afterRev := rev.takeWhile (fun c => c != '.')
  match rev.drop afterRev.length with
  | [] => ""
  | _ :: before =>
    if before.isEmpty || afterRev.isEmpty then ""
    else ⟨'.' :: afterRev.reverse⟩

/-- Models `dest.with_suffix(".part")`: replace the final extension of the
last component with ".part" (append ".part" when there is no extension). -/
def withSuffixPart (p : String) : String :=
  let n := pathName p
  let sfx := pySuffix n
  let newName : String := ⟨n.data.take (n.data.length - sfx.data.length)⟩ ++ ".part"
  (⟨p.data.take (p.data.length - n.data.length)⟩ : String) ++ newName

/-- Models Python `s.rstrip("/")`: drop every trailing '/'. -/
def rstripSlashes (s : String) : String :=
  ⟨(s.data.reverse.dropWhile (fun c => c == '/')).reverse⟩

/-- Flat filesystem state: the set of regular-file paths and directory paths
(as lists; the program only ever touches one downloads directory). -/
structure FS where
  files : List String
  dirs : List String
deriving Repr, DecidableEq

/-- Models `Path.exists()`: true for a file or a directory. -/
def FS.existsPath (fs : FS) (p : String) : Bool :=
  fs.files.contains p || fs.dirs.contains p

/-- Models `Path.is_dir()`. -/
def FS.isDir (fs : FS) (p : String) : Bool := fs.dirs.contains p

/-- Remove a regular file (no-op when absent). -/
def FS.removeFile (fs : FS) (p : String) : FS :=
  ⟨fs.files.filter (fun q => q != p), fs.dirs⟩

/-- Create or truncate a regular file (`open(p, "wb")` / rename target). -/
def FS.addFile (fs : FS) (p : String) : FS :=
  ⟨p :: fs.files.filter (fun q => q != p), fs.dirs⟩

/-- Outcome of the streaming GET for one URL: the request/status check fails,
the body write fails midway, or the full body is written. -/
inductive NetOutcome
  | httpError
  | writeFail
  | ok
deriving Repr, DecidableEq

/-- Result of `download_file`: the returned path or a raised error, the
resulting filesystem, and whether any network request was issued. -/
structure DLResult where
  result : Except Unit String
  fs : FS
  networkUsed : Bool
deriving Repr

/-- Lines 46-51 of `download_file`: if a leftover temp file exists, try to
unlink it; a failed unlink (`unlinkOk = false`, or the path being a
directory) is swallowed. -/
def cleanupLeftover (unlinkOk : Bool) (tmp : String) (fs : FS) : FS :=
  if fs.files.contains tmp && unlinkOk then fs.removeFile tmp else fs

/-- Lines 53-67 of `download_file`: issue the GET, stream the body into the
temp file, unlink the temp file on a write error (re-raising), and rename
temp to dest on success. -/
def dlTransfer (net : NetOutcome) (errUnlinkOk : Bool) (dest tmp : String)
    (fs : FS) : DLResult :=
  match net with
  | .httpError => ⟨.error (), fs, true⟩
  | .writeFail =>
    let fs2 := fs.addFile tmp
    let fs3 := if fs2.files.contains tmp && errUnlinkOk then fs2.removeFile tmp else fs2
    ⟨.error (), fs3, true⟩
  | .ok =>
    let fs2 := fs.addFile tmp
    ⟨.ok dest, (fs2.removeFile tmp).addFile dest, true⟩

/-- `download_file(session, url, dest_dir)` (lines 39-67): derive the local
name, return immediately when the destination already exists, otherwise
clean a leftover temp file and stream the body through the temp file. -/
def download_file (net : NetOutcome) (preUnlinkOk errUnlinkOk : Bool)
    (url destDir : String) (fs : FS) : DLResult :=
  let dest := pjoin destDir (localNameOf url)
  if fs.existsPath dest then ⟨.ok dest, fs, false⟩
  else
    let tmp := withSuffixPart dest
    dlTransfer net errUnlinkOk dest tmp (cleanupLeftover preUnlinkOk tmp fs)

/-- `"export" in href.lower()` — the selection test of `list_export_links`. -/
def hasExportCI (href : String) : Bool := containsSub "export" (pyLower href)

/-- `list_export_links` (lines 26-36): keep, in document order, each anchor
href containing "export" case-insensitively, resolved against the index URL
(the library resolver `urljoin(BASE_URL, ·)` is the parameter `uj`). -/
def list_export_links (uj : String → String) : List String → List String
  | [] => []
  | href :: rest =>
    if hasExportCI href then uj href :: list_export_links uj rest
    else list_export_links uj rest

/-- Result of one `gsutil_cp` call: the command printed, whether the external
process was actually run, whether the tool-not-found message was printed,
and the returned code. -/
structure GsutilResult where
  cmd : List String
  executed : Bool
  notFoundMsg : Bool
  rc : Int
deriving Repr, DecidableEq

/-- Lines 71-75 of `gsutil_cp`: destination identifier from bucket, optional
destination prefix rule, and the local path's base name. -/
def gsutilDest (bucket dpfx name : String) : String :=
  let b := rstripSlashes bucket
  let p := if dpfx != "" && !endsWithPy dpfx "/" then dpfx ++ "/" else dpfx
  b ++ "/" ++ p ++ name

/-- Lines 76-80 of `gsutil_cp`: the copy command, recursive for a directory. -/
def gsutilCmd (localPath : String) (isDir : Bool) (bucket dpfx : String) :
    List String :=
  let destName := gsutilDest bucket dpfx (pathName localPath)
  if isDir then ["gsutil", "cp", "-r", localPath, destName]
  else ["gsutil", "cp", localPath, destName]

/-- `gsutil_cp` (lines 70-101). `whichFound` models `shutil.which("gsutil")`
being non-None; `runExit` models `subprocess.run` (`none` = the rare
`FileNotFoundError`, `some rc` = a process that exited with `rc`). -/
def gsutil_cp (whichFound : Bool) (runExit : List String → Option Int)
    (localPath : String) (isDir : Bool) (bucket dpfx : String)
    (dryRun : Bool) : GsutilResult :=
  let cmd := gsutilCmd localPath isDir bucket dpfx
  if dryRun then ⟨cmd, false, false, 0⟩
  else if !whichFound then ⟨cmd, false, true, 2⟩
  else
    match runExit cmd with
    | none => ⟨cmd, false, false, 2⟩
    | some rc => ⟨cmd, true, false, rc⟩

/-- Result of `zipfile.ZipFile(local)`: a `BadZipFile` or the member list. -/
inductive ZipRead
  | bad
  | good (members : List String)
deriving Repr

/-- The external world of one run: per-URL network outcome, per-path zip
open result, `gsutil` resolvability, and external process exits. -/
structure World where
  net : String → NetOutcome
  readZip : String → ZipRead
  whichGsutil : Bool
  runExit : List String → Option Int

/-- The CLI arguments the driver consumes (`parse_args`, lines 104-112). -/
structure Config where
  bucket : String
  dpfx : String
  downloadsDir : String
  dryRun : Bool
  cleanup : Bool
  maxItems : Int
deriving Repr, DecidableEq

/-- How one iteration of the driver loop ended: the per-link `except` caught
an exception; the `BadZipFile` handler hit `continue`; or control reached
`processed += 1`. -/
inductive StepKind
  | raised
  | badZip
  | completed
deriving Repr, DecidableEq

/-- State observed by one driver-loop iteration's body. -/
structure StepResult where
  fs : FS
  uploads : List GsutilResult
  kind : StepKind
deriving Repr

/-- Lines 144-150: write each member whose lowered name ends in ".csv" to
its base name inside the downloads directory, overwriting. -/
def extractMembers (downloadsDir : String) (members : List String) (fs : FS) : FS :=
  (members.filter (fun m => endsWithPy (pyLower m) ".csv")).foldl
    (fun acc m => acc.addFile (pjoin downloadsDir (pathName m))) fs

/-- Line 155, `downloads.glob('*.csv')` under POSIX semantics: the direct
children of the downloads directory whose name ends in ".csv"
(case-sensitively; the program creates no subdirectories of downloads). -/
def csvSweep (downloadsDir : String) (fs : FS) : List String :=
  fs.files.filter
    (fun p => p == pjoin downloadsDir (pathName p) && endsWithPy (pathName p) ".csv")

/-- The body of the driver loop for one link (lines 132-173): download, then
either the zip branch (open, extract, sweep-upload, optional cleanup) or a
direct upload; classify how the iteration ended. -/
def processLink (w : World) (cfg : Config) (url : String) (fs : FS) : StepResult :=
  let dl := download_file (w.net url) true true url cfg.downloadsDir fs
  match dl.result with
  | .error _ => ⟨dl.fs, [], .raised⟩
  | .ok localPath =>
    if pyLower (pySuffix (pathName localPath)) = ".zip" then
      match w.readZip localPath with
      | .bad => ⟨dl.fs, [], .badZip⟩
      | .good members =>
        let fs2 := extractMembers cfg.downloadsDir members dl.fs
        let ups := (csvSweep cfg.downloadsDir fs2).map
          (fun c => gsutil_cp w.whichGsutil w.runExit c (fs2.isDir c)
            cfg.bucket cfg.dpfx cfg.dryRun)
        let fs3 := if cfg.cleanup then fs2.removeFile localPath else fs2
        ⟨fs3, ups, .completed⟩
    else
      ⟨dl.fs,
       [gsutil_cp w.whichGsutil w.runExit localPath (dl.fs.isDir localPath)
          cfg.bucket cfg.dpfx cfg.dryRun],
       .completed⟩

/-- Driver-loop state: filesystem, the `processed` counter, the links whose
handling began (download attempted), and every `gsutil_cp` call made. -/
structure RunState where
  fs : FS
  processed : Nat
  attempted : List String
  uploads : List GsutilResult
deriving Repr

/-- The driver loop (lines 127-173): per link, first the cap check
(`args.max_items and args.max_items > 0 and processed >= args.max_items`),
then the body; `processed` increments only when the body completes. -/
def runLoop (w : World) (cfg : Config) : List String → RunState → RunState
  | [], st => st
  | url :: rest, st =>
    if cfg.maxItems ≠ 0 ∧ cfg.maxItems > 0 ∧ (st.processed : Int) ≥ cfg.maxItems then
      st
    else
      runLoop w cfg rest
        { fs := (processLink w cfg url st.fs).fs
          processed :=
            st.processed +
              (if (processLink w cfg url st.fs).kind = .completed then 1 else 0)
          attempted := st.attempted ++ [url]
          uploads := st.uploads ++ (processLink w cfg url st.fs).uploads }

/-! ## Shared helper lemmas -/

theorem filter_idem {α : Type} (p : α → Bool) (l : List α) :
    (l.filter p).filter p = l.filter p := by
  induction l with
  | nil => rfl
  | cons a t ih => cases h : p a <;> simp [List.filter_cons, h, ih]

theorem mem_filter_ne_self (l : List String) (x : String) :
    x ∉ l.filter (fun q => q != x) := by
  intro hx
  have := (List.mem_filter.mp hx).2
  simp at this

theorem contains_filter_ne_self (l : List String) (x : String) :
    (l.filter (fun q => q != x)).contains x = false := by
  induction l with
  | nil => rfl
  | cons a t ih =>
    cases h : (a != x) with
    | false => simp [List.filter_cons, h, ih]
    | true =>
      have hxa : ¬x = a := by
        intro he
        subst he
        simp at h
      simp [List.filter_cons, h, List.contains_cons, ih, hxa]

/-- When the destination already exists, `download_file` returns it at once:
no network request, no filesystem change. -/
theorem download_file_skip (net : NetOutcome) (preOk errOk : Bool)
    (url destDir : String) (fs : FS)
    (hex : fs.existsPath (pjoin destDir (localNameOf url)) = true) :
    download_file net preOk errOk url destDir fs
      = ⟨.ok (pjoin destDir (localNameOf url)), fs, false⟩ := by
  unfold download_file
  simp [hex]

theorem filter_ne_of_not_mem {l : List String} {x : String} (h : x ∉ l) :
    l.filter (fun q => q != x) = l := by
  refine List.filter_eq_self.mpr (fun a ha => ?_)
  simp only [bne_iff_ne, ne_eq]
  exact fun hax => h (hax ▸ ha)

/-- With a fully written body (`NetOutcome.ok`), `download_file` returns the
destination path whether or not it downloads. -/
theorem download_file_ok_result (preOk errOk : Bool) (url destDir : String)
    (fs : FS) :
    (download_file .ok preOk errOk url destDir fs).result
      = .ok (pjoin destDir (localNameOf url)) := by
  unfold download_file dlTransfer
  by_cases h : fs.existsPath (pjoin destDir (localNameOf url)) = true <;>
    simp [h]

/-! ## C2: link discovery -/

/-- C2: for every anchor href on the index page, a link is returned exactly
when "export" occurs in the href case-insensitively; each kept href is
resolved against the index URL by the resolver `uj`, results stay in
document order, and duplicates are kept: `list_export_links` is the map of
the resolver over the case-insensitive "export" filter. -/
theorem export_links_filter_map (uj : String → String) (hrefs : List String) :
    list_export_links uj hrefs = (hrefs.filter hasExportCI).map uj := by
  induction hrefs with
  | nil => rfl
  | cons h t ih =>
    cases hc : hasExportCI h <;>
      simp [list_export_links, List.filter_cons, hc, ih]

/-! ## C8, C9: uploader -/

/-- C8: with the dry-run flag, `gsutil_cp` prints the exact copy command,
never invokes the external tool (`executed = false`), and reports success
(`rc = 0`), for every tool resolvability and process behaviour. -/
theorem dry_run_reports_success (whichFound : Bool)
    (runExit : List String → Option Int) (localPath : String) (isDir : Bool)
    (bucket dpfx : String) :
    gsutil_cp whichFound runExit localPath isDir bucket dpfx true
      = ⟨gsutilCmd localPath isDir bucket dpfx, false, false, 0⟩ := rfl

/-- C9: with the tool unresolvable and dry-run off, `gsutil_cp` prints the
dedicated not-found message and returns 2 without executing anything; this
is distinct from an upload failure, where the process is executed, no
not-found message is printed, and the process's own exit code is returned. -/
theorem tool_missing_distinct_error (runExit : List String → Option Int)
    (localPath : String) (isDir : Bool) (bucket dpfx : String) (rc : Int) :
    gsutil_cp false runExit localPath isDir bucket dpfx false
      = ⟨gsutilCmd localPath isDir bucket dpfx, false, true, 2⟩
    ∧ gsutil_cp true (fun _ => some rc) localPath isDir bucket dpfx false
      = ⟨gsutilCmd localPath isDir bucket dpfx, true, false, rc⟩ := ⟨rfl, rfl⟩

/-! ## C1: the post-expansion upload sweep -/

/-- C1 (code bug): for a zip whose single member is `20230101.export.CSV`,
expansion succeeds and writes `downloads/20230101.export.CSV`, but the
upload sweep (`downloads.glob('*.csv')`, case-sensitive under POSIX) matches
no file, so no upload command at all is printed — in particular not the
claimed `gsutil cp downloads/20230101.export.CSV
gs://bucket/prefix/20230101.export.CSV` — even though the member was
deliberately extracted by the case-insensitive member filter. -/
theorem uppercase_csv_sweep_gap :
    processLink
      ⟨fun _ => NetOutcome.ok,
       fun _ => ZipRead.good ["20230101.export.CSV"],
       true, fun _ => some 0⟩
      ⟨"gs://bucket", "prefix", "downloads", true, false, 0⟩
      "http://data.gdeltproject.org/events/20230101.export.CSV.zip"
      ⟨[], ["downloads"]⟩
    = ⟨⟨["downloads/20230101.export.CSV", "downloads/20230101.export.CSV.zip"],
        ["downloads"]⟩,
       [], StepKind.completed⟩ := by
  rfl

/-! ## C4, C5, C6, C10: the fetcher -/

/-- On the write-error path with a succeeding error-path unlink, the file
set after `dlTransfer` is the pre-cleanup file set minus the temp name, and
directories are untouched. -/
theorem writeFail_files (preOk : Bool) (dest tmp : String) (fs : FS) :
    (dlTransfer .writeFail true dest tmp (cleanupLeftover preOk tmp fs)).fs.files
      = fs.files.filter (fun q => q != tmp)
    ∧ (dlTransfer .writeFail true dest tmp (cleanupLeftover preOk tmp fs)).fs.dirs
      = fs.dirs := by
  unfold dlTransfer cleanupLeftover FS.addFile FS.removeFile
  cases hc : fs.files.contains tmp <;> cases preOk <;>
    simp [hc, List.filter_cons, filter_idem]

/-- C4: a write error while streaming the response body deletes the temp
file and propagates the failure: the result is an error, no temp or final
file is left behind, directories are untouched, every remaining file was
already present, and when no leftover temp file existed the file set is
exactly the pre-download one. -/
theorem write_failure_cleanup (preOk : Bool) (url destDir : String) (fs : FS)
    (hne : fs.existsPath (pjoin destDir (localNameOf url)) = false) :
    (download_file .writeFail preOk true url destDir fs).result = .error ()
    ∧ withSuffixPart (pjoin destDir (localNameOf url))
        ∉ (download_file .writeFail preOk true url destDir fs).fs.files
    ∧ pjoin destDir (localNameOf url)
        ∉ (download_file .writeFail preOk true url destDir fs).fs.files
    ∧ (∀ q, q ∈ (download_file .writeFail preOk true url destDir fs).fs.files →
        q ∈ fs.files)
    ∧ (download_file .writeFail preOk true url destDir fs).fs.dirs = fs.dirs
    ∧ (withSuffixPart (pjoin destDir (localNameOf url)) ∉ fs.files →
        (download_file .writeFail preOk true url destDir fs).fs.files = fs.files) := by
  have hdl : download_file .writeFail preOk true url destDir fs
      = dlTransfer .writeFail true (pjoin destDir (localNameOf url))
          (withSuffixPart (pjoin destDir (localNameOf url)))
          (cleanupLeftover preOk
            (withSuffixPart (pjoin destDir (localNameOf url))) fs) := by
    unfold download_file
    simp [hne]
  have hw := writeFail_files preOk (pjoin destDir (localNameOf url))
    (withSuffixPart (pjoin destDir (localNameOf url))) fs
  rw [hdl]
  refine ⟨rfl, ?_, ?_, ?_, hw.2, ?_⟩
  · rw [hw.1]; exact mem_filter_ne_self _ _
  · rw [hw.1]
    intro hmem
    have hin := (List.mem_filter.mp hmem).1
    unfold FS.existsPath at hne
    simp at hne
    exact hne.1 hin
  · rw [hw.1]; exact fun q hq => (List.mem_filter.mp hq).1
  · intro hnm; rw [hw.1]; exact filter_ne_of_not_mem hnm

/-- C5 counterexample: for the target name `file.zip` the temp file the code
uses is `downloads/file.part` — the extension is replaced — not the sibling
`downloads/file.zip.part` the claim names; a leftover `downloads/file.zip.part`
is accordingly not treated as the temp file and survives a full download. -/
theorem temp_name_not_plain_sibling :
    withSuffixPart "downloads/file.zip" = "downloads/file.part"
    ∧ withSuffixPart "downloads/file.zip" ≠ "downloads/file.zip.part"
    ∧ (download_file .ok true true "http://h/file.zip" "downloads"
        ⟨["downloads/file.zip.part"], ["downloads"]⟩).fs.files.contains
        "downloads/file.zip.part" = true := by
  refine ⟨rfl, by decide, rfl⟩

/-- C5 as amended: the temp name is the target with its final extension
replaced by ".part" (so `X.part` only when `X` has no extension); before the
transfer begins any leftover regular file of that name is removed when the
unlink succeeds, and a failing unlink is tolerated silently (the state is
left as is and the transfer still proceeds). -/
theorem temp_name_replaces_extension (net : NetOutcome) (preOk errOk : Bool)
    (url destDir : String) (fs : FS)
    (hne : fs.existsPath (pjoin destDir (localNameOf url)) = false) :
    download_file net preOk errOk url destDir fs
      = dlTransfer net errOk (pjoin destDir (localNameOf url))
          (withSuffixPart (pjoin destDir (localNameOf url)))
          (cleanupLeftover preOk
            (withSuffixPart (pjoin destDir (localNameOf url))) fs)
    ∧ (preOk = true →
        (cleanupLeftover preOk
            (withSuffixPart (pjoin destDir (localNameOf url))) fs).files.contains
          (withSuffixPart (pjoin destDir (localNameOf url))) = false)
    ∧ (preOk = false →
        cleanupLeftover preOk
          (withSuffixPart (pjoin destDir (localNameOf url))) fs = fs) := by
  refine ⟨?_, ?_, ?_⟩
  · unfold download_file
    simp [hne]
  · intro hp
    subst hp
    unfold cleanupLeftover FS.removeFile
    cases hc : fs.files.contains (withSuffixPart (pjoin destDir (localNameOf url))) with
    | false =>
      simp [hc]
      simpa using hc
    | true =>
      simp only [hc, Bool.and_self, if_true]
      exact contains_filter_ne_self fs.files _
  · intro hp
    subst hp
    unfold cleanupLeftover
    simp

/-- C6: when a file with the derived local name already exists, the fetcher
returns that path with no network access and an unchanged filesystem; hence
downloading the same URL twice touches the network on the first call only:
a successful first download leaves the destination present, and the second
call returns it immediately, without network use and without modification. -/
theorem second_download_skips_network (preOk errOk preOk2 errOk2 : Bool)
    (net2 : NetOutcome) (url destDir : String) (fs : FS)
    (hne : fs.existsPath (pjoin destDir (localNameOf url)) = false) :
    (download_file .ok preOk errOk url destDir fs).networkUsed = true
    ∧ (download_file .ok preOk errOk url destDir fs).result
        = .ok (pjoin destDir (localNameOf url))
    ∧ download_file net2 preOk2 errOk2 url destDir
        (download_file .ok preOk errOk url destDir fs).fs
      = ⟨.ok (pjoin destDir (localNameOf url)),
         (download_file .ok preOk errOk url destDir fs).fs, false⟩ := by
  have hdl : download_file .ok preOk errOk url destDir fs
      = dlTransfer .ok errOk (pjoin destDir (localNameOf url))
          (withSuffixPart (pjoin destDir (localNameOf url)))
          (cleanupLeftover preOk
            (withSuffixPart (pjoin destDir (localNameOf url))) fs) := by
    unfold download_file
    simp [hne]
  refine ⟨by rw [hdl]; rfl, by rw [hdl]; rfl, ?_⟩
  have hex : ((download_file .ok preOk errOk url destDir fs).fs).existsPath
      (pjoin destDir (localNameOf url)) = true := by
    rw [hdl]
    unfold dlTransfer FS.addFile FS.removeFile FS.existsPath
    simp
  exact download_file_skip net2 preOk2 errOk2 url destDir _ hex

/-- C10: a URL whose path ends in '/' derives an empty local name, so the
destination is the downloads directory itself; since that directory exists
the fetcher returns it with no network request and no state change, and the
subsequent upload of that result builds the recursive copy command for the
whole downloads directory. -/
theorem trailing_slash_url_returns_dir (net : NetOutcome) (preOk errOk : Bool)
    (url destDir bucket dpfx : String) (fs : FS)
    (hsl : url.data.getLast? = some '/')
    (hdir : fs.dirs.contains destDir = true) :
    localNameOf url = ""
    ∧ download_file net preOk errOk url destDir fs = ⟨.ok destDir, fs, false⟩
    ∧ fs.isDir destDir = true
    ∧ gsutilCmd destDir (fs.isDir destDir) bucket dpfx
        = ["gsutil", "cp", "-r", destDir, gsutilDest bucket dpfx (pathName destDir)] := by
  have hname : localNameOf url = "" := by
    unfold localNameOf lastSlashSegment
    have hr : url.data.reverse.head? = some '/' := by
      rw [← List.getLast?_eq_head?_reverse]
      exact hsl
    cases hrev : url.data.reverse with
    | nil => rw [hrev] at hr; simp at hr
    | cons c t =>
      rw [hrev] at hr
      have hc : c = '/' := by simpa using hr
      subst hc
      simp [List.takeWhile_cons]
  have hdest : pjoin destDir (localNameOf url) = destDir := by
    rw [hname]; rfl
  have hdirs : destDir ∈ fs.dirs := by simpa using hdir
  have hex : fs.existsPath destDir = true := by
    unfold FS.existsPath
    simp [hdirs]
  have hex2 : fs.existsPath (pjoin destDir (localNameOf url)) = true := by
    rw [hdest]; exact hex
  refine ⟨hname, ?_, ?_, ?_⟩
  · rw [download_file_skip net preOk errOk url destDir fs hex2, hdest]
  · unfold FS.isDir; exact hdir
  · unfold FS.isDir gsutilCmd
    rw [hdir]
    simp

/-! ## C7, C3: the driver loop -/

/-- When the network delivers the body and no zip open reports a corrupt
archive, a link's handling always reaches `processed += 1`, whatever the
upload exit codes are. -/
theorem processLink_completed (w : World) (cfg : Config) (url : String)
    (fs : FS) (hnet : w.net url = .ok) (hzip : ∀ p, w.readZip p ≠ .bad) :
    (processLink w cfg url fs).kind = .completed := by
  have hres := download_file_ok_result true true url cfg.downloadsDir fs
  simp only [processLink, hnet, hres]
  by_cases hz : pyLower (pySuffix (pathName (pjoin cfg.downloadsDir (localNameOf url)))) = ".zip"
  · simp only [hz, if_pos rfl]
    cases hr : w.readZip (pjoin cfg.downloadsDir (localNameOf url)) with
    | bad => exact absurd hr (hzip _)
    | good ms => rfl
  · simp [hz]

/-- C7: a structurally invalid zip makes the `BadZipFile` handler report the
corrupt archive and skip the item: the iteration makes no upload call, the
counter is not incremented, and the loop continues with the remaining
links. -/
theorem corrupt_zip_skips_upload (w : World) (cfg : Config) (url : String)
    (st : RunState) (rest : List String)
    (hnet : w.net url = .ok)
    (hzip : pyLower (pySuffix (pathName (pjoin cfg.downloadsDir (localNameOf url)))) = ".zip")
    (hbad : w.readZip (pjoin cfg.downloadsDir (localNameOf url)) = .bad)
    (h0 : cfg.maxItems = 0) :
    (∀ fs : FS, processLink w cfg url fs
      = ⟨(download_file .ok true true url cfg.downloadsDir fs).fs, [], .badZip⟩)
    ∧ runLoop w cfg (url :: rest) st
      = runLoop w cfg rest
          ⟨(download_file .ok true true url cfg.downloadsDir st.fs).fs,
           st.processed, st.attempted ++ [url], st.uploads⟩ := by
  have hproc : ∀ fs : FS, processLink w cfg url fs
      = ⟨(download_file .ok true true url cfg.downloadsDir fs).fs, [], .badZip⟩ := by
    intro fs
    have hres := download_file_ok_result true true url cfg.downloadsDir fs
    simp only [processLink, hnet, hres]
    simp only [hzip, hbad]
    simp
  refine ⟨hproc, ?_⟩
  have hcond : ¬(cfg.maxItems ≠ 0 ∧ cfg.maxItems > 0 ∧
      (st.processed : Int) ≥ cfg.maxItems) := by
    simp [h0]
  simp only [runLoop, if_neg hcond, hproc]
  simp

/-- C3: with `max-items = 2` and five discovered links (all of whose
handling completes — upload exit codes are unconstrained), exactly the
first two links are attempted and the remaining three are untouched, the
counter reaching 2; and a cap of zero means unlimited: with `max-items = 0`
every discovered link is attempted, whatever each outcome is. -/
theorem max_items_cap (w : World) (cfg cfg0 : Config)
    (l1 l2 l3 l4 l5 : String) (st : RunState)
    (h2 : cfg.maxItems = 2) (hp : st.processed = 0) (ha : st.attempted = [])
    (hnet : ∀ u, w.net u = .ok) (hzip : ∀ p, w.readZip p ≠ .bad)
    (h0 : cfg0.maxItems = 0) :
    (runLoop w cfg [l1, l2, l3, l4, l5] st).attempted = [l1, l2]
    ∧ (runLoop w cfg [l1, l2, l3, l4, l5] st).processed = 2
    ∧ ∀ (links : List String) (st2 : RunState),
        (runLoop w cfg0 links st2).attempted = st2.attempted ++ links := by
  have hk : ∀ (url : String) (fs : FS), (processLink w cfg url fs).kind = .completed :=
    fun url fs => processLink_completed w cfg url fs (hnet url) hzip
  have hzero : ∀ (links : List String) (st2 : RunState),
      (runLoop w cfg0 links st2).attempted = st2.attempted ++ links := by
    intro links
    induction links with
    | nil => intro st2; simp [runLoop]
    | cons l t ih =>
      intro st2
      have hcond : ¬(cfg0.maxItems ≠ 0 ∧ cfg0.maxItems > 0 ∧
          (st2.processed : Int) ≥ cfg0.maxItems) := by
        simp [h0]
      simp only [runLoop, if_neg hcond]
      rw [ih]
      simp
  have hone : ∀ (url : String) (rest : List String) (fsv : FS) (pv : Nat)
      (av : List String) (uv : List GsutilResult),
      ¬(cfg.maxItems ≠ 0 ∧ cfg.maxItems > 0 ∧ (pv : Int) ≥ cfg.maxItems) →
      runLoop w cfg (url :: rest) ⟨fsv, pv, av, uv⟩
        = runLoop w cfg rest
            ⟨(processLink w cfg url fsv).fs, pv + 1, av ++ [url],
             uv ++ (processLink w cfg url fsv).uploads⟩ := by
    intro url rest fsv pv av uv hcond
    simp only [runLoop]
    rw [if_neg hcond]
    simp [hk]
  have step3 : ∀ (fsv : FS) (pv : Nat) (av : List String)
      (uv : List GsutilResult),
      (cfg.maxItems ≠ 0 ∧ cfg.maxItems > 0 ∧ (pv : Int) ≥ cfg.maxItems) →
      runLoop w cfg [l3, l4, l5] ⟨fsv, pv, av, uv⟩ = ⟨fsv, pv, av, uv⟩ := by
    intro fsv pv av uv hs
    simp only [runLoop]
    rw [if_pos hs]
  obtain ⟨fs0, p0, a0, u0⟩ := st
  have hp0 : p0 = 0 := hp
  have ha0 : a0 = [] := ha
  subst hp0 ha0
  have hc1 : ¬(cfg.maxItems ≠ 0 ∧ cfg.maxItems > 0 ∧
      ((0 : Nat) : Int) ≥ cfg.maxItems) := by
    simp [h2]
  have step1 := hone l1 [l2, l3, l4, l5] fs0 0 [] u0 hc1
  have hc2 : ¬(cfg.maxItems ≠ 0 ∧ cfg.maxItems > 0 ∧
      ((1 : Nat) : Int) ≥ cfg.maxItems) := by
    simp [h2]
  have step2 := hone l2 [l3, l4, l5] (processLink w cfg l1 fs0).fs 1 [l1]
      (u0 ++ (processLink w cfg l1 fs0).uploads) hc2
  have hc3 : cfg.maxItems ≠ 0 ∧ cfg.maxItems > 0 ∧
      ((2 : Nat) : Int) ≥ cfg.maxItems := by
    refine ⟨by simp [h2], by simp [h2], by rw [h2]; norm_num⟩
  rw [step1]
  simp only [Nat.zero_add, List.nil_append]
  rw [step2]
  simp only [Nat.reduceAdd, List.cons_append, List.nil_append]
  rw [step3 _ 2 _ _ hc3]
  exact ⟨rfl, rfl, hzero⟩

/-! ## Concrete instances used by the witnesses -/

/-- A benign world: every fetch succeeds, every zip opens with no members,
the tool resolves, every process exits 0. -/
def okWorld : World := ⟨fun _ => .ok, fun _ => .good [], true, fun _ => some 0⟩

/-- A world where every zip open reports a corrupt archive. -/
def badZipWorld : World := ⟨fun _ => .ok, fun _ => .bad, true, fun _ => some 0⟩

/-- A dry-run configuration capped at two items. -/
def capCfg : Config := ⟨"gs://bucket", "", "downloads", true, false, 2⟩

/-- A dry-run configuration with no cap. -/
def freeCfg : Config := ⟨"gs://bucket", "", "downloads", true, false, 0⟩

/-- An initial run state over an empty downloads directory. -/
def startState : RunState := ⟨⟨[], ["downloads"]⟩, 0, [], []⟩

/-! ## Witnesses -/

/-- Witness for `write_failure_cleanup` at a concrete download. -/
theorem write_failure_cleanup_witness :
    (⟨["downloads/other.csv"], ["downloads"]⟩ : FS).existsPath
        (pjoin "downloads" (localNameOf "http://h/f.zip")) = false
    ∧ ((download_file .writeFail true true "http://h/f.zip" "downloads"
          ⟨["downloads/other.csv"], ["downloads"]⟩).result = .error ()
      ∧ withSuffixPart (pjoin "downloads" (localNameOf "http://h/f.zip"))
          ∉ (download_file .writeFail true true "http://h/f.zip" "downloads"
              ⟨["downloads/other.csv"], ["downloads"]⟩).fs.files
      ∧ pjoin "downloads" (localNameOf "http://h/f.zip")
          ∉ (download_file .writeFail true true "http://h/f.zip" "downloads"
              ⟨["downloads/other.csv"], ["downloads"]⟩).fs.files
      ∧ (∀ q, q ∈ (download_file .writeFail true true "http://h/f.zip" "downloads"
              ⟨["downloads/other.csv"], ["downloads"]⟩).fs.files →
          q ∈ (⟨["downloads/other.csv"], ["downloads"]⟩ : FS).files)
      ∧ (download_file .writeFail true true "http://h/f.zip" "downloads"
            ⟨["downloads/other.csv"], ["downloads"]⟩).fs.dirs
          = (⟨["downloads/other.csv"], ["downloads"]⟩ : FS).dirs
      ∧ (withSuffixPart (pjoin "downloads" (localNameOf "http://h/f.zip"))
            ∉ (⟨["downloads/other.csv"], ["downloads"]⟩ : FS).files →
          (download_file .writeFail true true "http://h/f.zip" "downloads"
              ⟨["downloads/other.csv"], ["downloads"]⟩).fs.files
            = (⟨["downloads/other.csv"], ["downloads"]⟩ : FS).files)) :=
  ⟨by decide,
   write_failure_cleanup true "http://h/f.zip" "downloads"
     ⟨["downloads/other.csv"], ["downloads"]⟩ (by decide)⟩

/-- Witness for `temp_name_replaces_extension` at a concrete download with a
leftover temp file present. -/
theorem temp_name_replaces_extension_witness :
    (⟨["downloads/f.part"], ["downloads"]⟩ : FS).existsPath
        (pjoin "downloads" (localNameOf "http://h/f.zip")) = false
    ∧ (download_file .ok true true "http://h/f.zip" "downloads"
          ⟨["downloads/f.part"], ["downloads"]⟩
        = dlTransfer .ok true (pjoin "downloads" (localNameOf "http://h/f.zip"))
            (withSuffixPart (pjoin "downloads" (localNameOf "http://h/f.zip")))
            (cleanupLeftover true
              (withSuffixPart (pjoin "downloads" (localNameOf "http://h/f.zip")))
              ⟨["downloads/f.part"], ["downloads"]⟩)
      ∧ ((true : Bool) = true →
          (cleanupLeftover true
              (withSuffixPart (pjoin "downloads" (localNameOf "http://h/f.zip")))
              ⟨["downloads/f.part"], ["downloads"]⟩).files.contains
            (withSuffixPart (pjoin "downloads" (localNameOf "http://h/f.zip"))) = false)
      ∧ ((true : Bool) = false →
          cleanupLeftover true
              (withSuffixPart (pjoin "downloads" (localNameOf "http://h/f.zip")))
              ⟨["downloads/f.part"], ["downloads"]⟩
            = ⟨["downloads/f.part"], ["downloads"]⟩)) :=
  ⟨by decide,
   temp_name_replaces_extension .ok true true "http://h/f.zip" "downloads"
     ⟨["downloads/f.part"], ["downloads"]⟩ (by decide)⟩

/-- Witness for `second_download_skips_network` at a concrete download. -/
theorem second_download_skips_network_witness :
    (⟨[], ["downloads"]⟩ : FS).existsPath
        (pjoin "downloads" (localNameOf "http://h/f.csv")) = false
    ∧ ((download_file .ok true true "http://h/f.csv" "downloads"
          ⟨[], ["downloads"]⟩).networkUsed = true
      ∧ (download_file .ok true true "http://h/f.csv" "downloads"
          ⟨[], ["downloads"]⟩).result
          = .ok (pjoin "downloads" (localNameOf "http://h/f.csv"))
      ∧ download_file .httpError true true "http://h/f.csv" "downloads"
          (download_file .ok true true "http://h/f.csv" "downloads"
            ⟨[], ["downloads"]⟩).fs
        = ⟨.ok (pjoin "downloads" (localNameOf "http://h/f.csv")),
           (download_file .ok true true "http://h/f.csv" "downloads"
             ⟨[], ["downloads"]⟩).fs, false⟩) :=
  ⟨by decide,
   second_download_skips_network true true true true .httpError
     "http://h/f.csv" "downloads" ⟨[], ["downloads"]⟩ (by decide)⟩

/-- Witness for `trailing_slash_url_returns_dir` at a concrete URL ending in
a slash. -/
theorem trailing_slash_url_returns_dir_witness :
    ("http://h/events/").data.getLast? = some '/'
    ∧ (⟨[], ["downloads"]⟩ : FS).dirs.contains "downloads" = true
    ∧ (localNameOf "http://h/events/" = ""
      ∧ download_file .httpError true true "http://h/events/" "downloads"
          ⟨[], ["downloads"]⟩
        = ⟨.ok "downloads", ⟨[], ["downloads"]⟩, false⟩
      ∧ (⟨[], ["downloads"]⟩ : FS).isDir "downloads" = true
      ∧ gsutilCmd "downloads" ((⟨[], ["downloads"]⟩ : FS).isDir "downloads")
          "gs://bucket" "data"
        = ["gsutil", "cp", "-r", "downloads",
           gsutilDest "gs://bucket" "data" (pathName "downloads")]) :=
  ⟨by decide, by decide,
   trailing_slash_url_returns_dir .httpError true true "http://h/events/"
     "downloads" "gs://bucket" "data" ⟨[], ["downloads"]⟩ (by decide) (by decide)⟩

/-- Witness for `corrupt_zip_skips_upload` at a concrete corrupt zip. -/
theorem corrupt_zip_skips_upload_witness :
    badZipWorld.net "http://h/f.zip" = .ok
    ∧ pyLower (pySuffix (pathName
        (pjoin freeCfg.downloadsDir (localNameOf "http://h/f.zip")))) = ".zip"
    ∧ badZipWorld.readZip
        (pjoin freeCfg.downloadsDir (localNameOf "http://h/f.zip")) = .bad
    ∧ freeCfg.maxItems = 0
    ∧ ((∀ fs : FS, processLink badZipWorld freeCfg "http://h/f.zip" fs
        = ⟨(download_file .ok true true "http://h/f.zip"
            freeCfg.downloadsDir fs).fs, [], .badZip⟩)
      ∧ runLoop badZipWorld freeCfg ["http://h/f.zip", "http://h/g.zip"] startState
        = runLoop badZipWorld freeCfg ["http://h/g.zip"]
            ⟨(download_file .ok true true "http://h/f.zip"
                freeCfg.downloadsDir startState.fs).fs,
             startState.processed, startState.attempted ++ ["http://h/f.zip"],
             startState.uploads⟩) :=
  ⟨rfl, by decide, rfl, rfl,
   corrupt_zip_skips_upload badZipWorld freeCfg "http://h/f.zip" startState
     ["http://h/g.zip"] rfl (by decide) rfl rfl⟩

/-- Witness for `max_items_cap` at five concrete links. -/
theorem max_items_cap_witness :
    capCfg.maxItems = 2
    ∧ startState.processed = 0
    ∧ startState.attempted = []
    ∧ (∀ u, okWorld.net u = .ok)
    ∧ (∀ p, okWorld.readZip p ≠ .bad)
    ∧ freeCfg.maxItems = 0
    ∧ ((runLoop okWorld capCfg ["u1", "u2", "u3", "u4", "u5"] startState).attempted
        = ["u1", "u2"]
      ∧ (runLoop okWorld capCfg ["u1", "u2", "u3", "u4", "u5"] startState).processed
        = 2
      ∧ ∀ (links : List String) (st2 : RunState),
          (runLoop okWorld freeCfg links st2).attempted = st2.attempted ++ links) := by
  refine ⟨rfl, rfl, rfl, fun _ => rfl, ?_, rfl, ?_⟩
  · intro p hp
    simp [okWorld] at hp
  · exact max_items_cap okWorld capCfg freeCfg "u1" "u2" "u3" "u4" "u5" startState
      rfl rfl rfl (fun _ => rfl) (fun p hp => by simp [okWorld] at hp) rfl

end Sharetemp
